import Mathlib

/-
Verification of the Lamassu transaction processor (satmachineadmin repository,
src/transaction_processor.py) against its natural-language specification.

Modelling conventions (shallow embedding):
- Python ints are embedded as ℤ, Python floats as exact rationals ℚ
  (the specification states all numeric formulas in exact arithmetic).
- Python int(x) truncation toward zero is pyTrunc.
- Timestamps (datetime objects, already normalized to UTC by ingestion) are
  embedded as abstract integer instants; a missing timestamp is none.
- The external collaborators (LNBits wallet layer, CRUD persistence layer,
  remote ledger) are modelled by an explicit environment Env whose boolean
  fields state whether a given collaborator call succeeds or raises, and whose
  function fields give the data those calls return.  Persistent effects are
  recorded in an explicit state St; each effectful method of
  LamassuTransactionProcessor becomes a function Env → ... → St → St × result.
- Python resolves a bare name in a function body against the function local
  variables (names assigned anywhere in the body, plus parameters), then the
  module globals, then the builtins; an unresolved name raises NameError.
  This lookup is embedded by pyResolves together with per-function lists of
  local variable names transcribed from the source.
-/

namespace SatMachine

/-- Python int(x) applied to a real value truncates toward zero. -/
def pyTrunc (q : ℚ) : ℤ := if 0 ≤ q then ⌊q⌋ else ⌈q⌉

/-- Result of the commission decomposition performed identically in
calculate_distribution_amounts (lines 652-663), store_lamassu_transaction
(lines 891-898) and process_transaction (lines 1017-1022). -/
structure Decomp where
  effective_commission : ℚ
  base_crypto_atoms : ℤ
  commission_amount_sats : ℤ
  deriving DecidableEq

/-- Commission decomposition from the source: if commission_percentage > 0,
effective_commission = commission_percentage * (100 - discount) / 100,
base_crypto_atoms = int(crypto_atoms / (1 + effective_commission)) and
commission_amount_sats = crypto_atoms - base_crypto_atoms; otherwise the
base is the whole amount and commission is 0. -/
def decompose (crypto_atoms : ℤ) (commission_percentage discount : ℚ) : Decomp :=
  if 0 < commission_percentage then
    let effective_commission := commission_percentage * (100 - discount) / 100
    let base_crypto_atoms := pyTrunc ((crypto_atoms : ℚ) / (1 + effective_commission))
    ⟨effective_commission, base_crypto_atoms, crypto_atoms - base_crypto_atoms⟩
  else
    ⟨0, crypto_atoms, 0⟩

/-- Exchange rate computed at lines 666 and 901:
base_crypto_atoms / fiat_amount if fiat_amount > 0 else 0. -/
def exchangeRateOf (base_crypto_atoms fiat_amount : ℤ) : ℚ :=
  if 0 < fiat_amount then (base_crypto_atoms : ℚ) / (fiat_amount : ℚ) else 0

/-- One entry of the distributions mapping built at lines 705-709. -/
structure DistEntry where
  fiat_amount : ℤ
  sats_amount : ℤ
  exchange_rate : ℚ
  deriving DecidableEq

/-- A Flow Mode DCA client (participant), as consumed by the processor. -/
structure DcaClient where
  id : String
  wallet_id : String
  deriving DecidableEq

/-- Lines 680-685: for each flow client fetch the balance as of the
transaction time and keep only clients with strictly positive remaining
balance (insertion order is preserved by the Python dict). -/
def eligibleBalances (flow_clients : List DcaClient) (balanceOf : String → ℤ) :
    List (String × ℤ) :=
  (flow_clients.map (fun c => (c.id, balanceOf c.id))).filter (fun p => 0 < p.2)

/-- Lines 687-713: if the total of the included balances is zero return the
empty mapping, otherwise give each included client
int(base_crypto_atoms * (balance / total)) sats and
int(client_sats / exchange_rate) fiat units (0 when the rate is not positive). -/
def allocate (base_crypto_atoms : ℤ) (exchange_rate : ℚ)
    (client_balances : List (String × ℤ)) : List (String × DistEntry) :=
  let total_confirmed_deposits := (client_balances.map Prod.snd).sum
  if total_confirmed_deposits = 0 then []
  else
    client_balances.map (fun p =>
      let proportion : ℚ := (p.2 : ℚ) / (total_confirmed_deposits : ℚ)
      let client_sats_amount := pyTrunc ((base_crypto_atoms : ℚ) * proportion)
      let client_fiat_amount :=
        if 0 < exchange_rate then pyTrunc ((client_sats_amount : ℚ) / exchange_rate)
        else 0
      (p.1, ⟨client_fiat_amount, client_sats_amount, exchange_rate⟩))

/-- A row of the remote cash_out_txs query after the per-column coercions of
execute_ssh_query (lines 494-518); absent values are none. -/
structure Tx where
  transaction_id : String
  fiat_amount : Option ℤ
  crypto_amount : Option ℤ
  commission_percentage : Option ℚ
  discount : Option ℚ
  transaction_time : Option ℤ
  deriving DecidableEq

/-- The active Lamassu configuration record, restricted to the fields the
processor reads. -/
structure Config where
  id : String
  source_wallet_id : Option String
  commission_wallet_id : Option String
  deriving DecidableEq

/-- Lifecycle status of a persisted DCA payment. -/
inductive PayStatus
  | pending
  | confirmed
  | failed
  deriving DecidableEq

/-- A persisted DCA payment record (PersistedPayment). -/
structure Payment where
  id : ℕ
  client_id : String
  amount_sats : ℤ
  amount_fiat : ℤ
  exchange_rate : ℚ
  lamassu_transaction_id : String
  transaction_time : Option ℤ
  status : PayStatus
  deriving DecidableEq

/-- A stored Lamassu transaction record (StoredTransaction). -/
structure StoredTx where
  id : ℕ
  lamassu_transaction_id : String
  fiat_amount : ℤ
  crypto_amount : ℤ
  commission_percentage : ℚ
  discount : ℚ
  effective_commission : ℚ
  commission_amount_sats : ℤ
  base_amount_sats : ℤ
  exchange_rate : ℚ
  transaction_time : Option ℤ
  clients_count : Option ℕ
  distributions_total_sats : Option ℤ
  deriving DecidableEq

/-- Persistent effects of the processor.  Each write issued through a
collaborator is recorded as an appended event, so that how often something
was written is observable (credits to the pooled source wallet, stored
transactions, payment records, settled payouts, created invoices, commission
transfers, test-result writes, and the two watermark writes). -/
structure St where
  credits : List (String × ℤ)
  storedTxs : List StoredTx
  payments : List Payment
  payouts : List (String × ℤ)
  invoicesCreated : List (String × ℤ)
  commissionTransfers : List (String × ℤ)
  testResultWrites : List Bool
  pollStartWrites : List ℤ
  pollSuccessWrites : List ℤ
  deriving DecidableEq

/-- The empty initial state. -/
def st0 : St := ⟨[], [], [], [], [], [], [], [], []⟩

/-- The stored last-test-result flag is the most recent write. -/
def lastTestResult (s : St) : Option Bool := s.testResultWrites.getLast?

/-- Behaviour of the external collaborators during one poll cycle or probe
run.  Boolean fields say whether the corresponding collaborator call
succeeds; function fields give the data returned. -/
structure Env where
  config : Option Config
  flowClients : List DcaClient
  balanceAsOf : String → Option ℤ → ℤ
  walletExists : String → Bool
  creditOk : Bool
  invoiceOk : String → Bool
  payOk : String → Bool
  commissionInvoiceOk : Bool
  commissionPayOk : Bool
  queryResult : List Tx
  now : ℤ
  pollStartRaises : Bool
  pollSuccessRaises : Bool
  use_ssh_tunnel : Bool
  sshAvailable : Bool
  tunnelOk : Bool
  queryOk : Bool
  tableOk : Bool
  timezoneOk : Bool

/-- Names bound at module level of transaction_processor.py (imports,
module-level constants, the class, the singleton and the entry point). -/
def moduleGlobals : List String :=
  ["asyncio", "asyncpg", "datetime", "timedelta", "timezone", "List",
   "Optional", "Dict", "Any", "logger", "socket", "threading", "time",
   "asyncssh", "subprocess", "SSH_AVAILABLE", "create_invoice", "pay_invoice",
   "get_wallet", "update_wallet_balance", "settings", "get_flow_mode_clients",
   "get_payments_by_lamassu_transaction", "create_dca_payment",
   "get_client_balance_summary", "get_active_lamassu_config",
   "update_config_test_result", "update_poll_start_time",
   "update_poll_success_time", "update_dca_payment_status",
   "create_lamassu_transaction",
   "update_lamassu_transaction_distribution_stats", "CreateDcaPaymentData",
   "LamassuTransaction", "DcaClient", "CreateLamassuTransactionData",
   "LamassuTransactionProcessor", "transaction_processor",
   "poll_lamassu_transactions"]

/-- Python builtins that could resolve a bare name. -/
def pythonBuiltins : List String :=
  ["int", "float", "str", "bool", "len", "sum", "next", "set", "dict",
   "list", "print", "hasattr", "locals", "range", "enumerate", "Exception",
   "ImportError", "FileNotFoundError"]

/-- Python name resolution inside a function body: local variables (names
assigned anywhere in the body, plus parameters), then module globals, then
builtins.  An unresolved name raises NameError at evaluation time. -/
def pyResolves (local_vars : List String) (n : String) : Bool :=
  local_vars.contains n || moduleGlobals.contains n || pythonBuiltins.contains n

/-- Local variable names of store_lamassu_transaction (lines 881-927):
its parameters and every name assigned in its body. -/
def store_lamassu_transaction_locals : List String :=
  ["self", "transaction", "crypto_atoms", "fiat_amount",
   "commission_percentage", "discount", "effective_commission",
   "base_crypto_atoms", "commission_amount_sats", "exchange_rate",
   "transaction_data", "stored_transaction", "e"]

/-- Local variable names of distribute_to_clients (lines 719-764):
its parameters and every name assigned in its body. -/
def distribute_to_clients_locals : List String :=
  ["self", "transaction", "distributions", "transaction_id", "client_id",
   "distribution", "flow_clients", "client", "payment_data", "dca_payment",
   "success", "e"]

/-- Lines 989: payments already linked to a Lamassu transaction identifier. -/
def get_payments_by_lamassu_transaction (s : St) (transaction_id : String) :
    List Payment :=
  s.payments.filter (fun p => p.lamassu_transaction_id = transaction_id)

/-- Lines 842-871: credit the source wallet with the full crypto_atoms
amount.  Returns False (with no credit recorded) when there is no active
config, no configured source wallet, the crypto_amount key is missing
(KeyError caught by the handler), the source wallet does not exist, or the
balance update itself raises; returns True after recording the credit. -/
def credit_source_wallet (env : Env) (transaction : Tx) (s : St) : St × Bool :=
  match env.config with
  | none => (s, false)
  | some admin_config =>
    match admin_config.source_wallet_id with
    | none => (s, false)
    | some source_wallet_id =>
      match transaction.crypto_amount with
      | none => (s, false)
      | some crypto_atoms =>
        if env.walletExists source_wallet_id then
          if env.creditOk then
            ({ s with credits :=
                s.credits ++ [(transaction.transaction_id, crypto_atoms)] }, true)
          else (s, false)
        else (s, false)

/-- Lines 881-927: store the Lamassu transaction.  The record construction
at lines 904-918 evaluates the bare name transaction_time, which does not
resolve in this function (it is not among its local variables, the module
globals or the builtins), so a NameError is raised, caught by the handler at
lines 925-927, and None is returned with nothing persisted.  The first
branch below is what the construction would persist if the name resolved to
the ingested timestamp. -/
def store_lamassu_transaction (env : Env) (transaction : Tx) (s : St) :
    St × Option ℕ :=
  let crypto_atoms := transaction.crypto_amount.getD 0
  let fiat_amount := transaction.fiat_amount.getD 0
  let commission_percentage := transaction.commission_percentage.getD 0
  let discount := transaction.discount.getD 0
  let dec := decompose crypto_atoms commission_percentage discount
  let exchange_rate := exchangeRateOf dec.base_crypto_atoms fiat_amount
  if pyResolves store_lamassu_transaction_locals "transaction_time" then
    let stored : StoredTx :=
      { id := s.storedTxs.length
        lamassu_transaction_id := transaction.transaction_id
        fiat_amount := fiat_amount
        crypto_amount := crypto_atoms
        commission_percentage := commission_percentage
        discount := discount
        effective_commission := dec.effective_commission
        commission_amount_sats := dec.commission_amount_sats
        base_amount_sats := dec.base_crypto_atoms
        exchange_rate := exchange_rate
        transaction_time := transaction.transaction_time
        clients_count := none
        distributions_total_sats := none }
    ({ s with storedTxs := s.storedTxs ++ [stored] }, some stored.id)
  else
    (s, none)

/-- Lines 605-717: compute the per-client distribution mapping.  Returns the
empty mapping when there are no flow clients or a required amount field is
missing; otherwise decomposes the commission and allocates the base amount
proportionally over the balances as of the transaction time.  (The
timezone normalisation at lines 622-632 is the identity here because
instants are already UTC.) -/
def calculate_distribution_amounts (env : Env) (transaction : Tx) :
    List (String × DistEntry) :=
  if env.flowClients.isEmpty then []
  else
    match transaction.crypto_amount, transaction.fiat_amount with
    | some crypto_atoms, some fiat_amount =>
        let commission_percentage := transaction.commission_percentage.getD 0
        let discount := transaction.discount.getD 0
        let dec := decompose crypto_atoms commission_percentage discount
        let exchange_rate := exchangeRateOf dec.base_crypto_atoms fiat_amount
        allocate dec.base_crypto_atoms exchange_rate
          (eligibleBalances env.flowClients
            (fun cid => env.balanceAsOf cid transaction.transaction_time))
    | _, _ => []

/-- Lines 873-879: set the status of one payment record. -/
def update_payment_status (s : St) (payment_id : ℕ) (status : PayStatus) : St :=
  { s with payments :=
      s.payments.map (fun p =>
        if p.id = payment_id then { p with status := status } else p) }

/-- Lines 766-840: send one DCA payment.  Fails when the target wallet does
not exist or the invoice cannot be created; when no source wallet is
configured the invoice is created but not paid and this is reported as
success; otherwise the invoice is paid from the source wallet, which may
itself fail. -/
def send_dca_payment (env : Env) (client : DcaClient) (distribution : DistEntry)
    (_lamassu_transaction_id : String) (s : St) : St × Bool :=
  let target_wallet_id := client.wallet_id
  let amount_sats := distribution.sats_amount
  if env.walletExists target_wallet_id then
    if env.invoiceOk target_wallet_id then
      let s1 := { s with invoicesCreated :=
          s.invoicesCreated ++ [(target_wallet_id, amount_sats)] }
      match env.config with
      | none => (s1, false)
      | some admin_config =>
        match admin_config.source_wallet_id with
        | none => (s1, true)
        | some _source_wallet_id =>
          if env.payOk target_wallet_id then
            ({ s1 with payouts := s1.payouts ++ [(target_wallet_id, amount_sats)] },
             true)
          else (s1, false)
    else (s, false)
  else (s, false)

/-- Lines 719-764: per-client distribution loop.  For each entry the client
is looked up; building CreateDcaPaymentData at lines 735-743 evaluates the
bare name transaction_time, which does not resolve in this function, so a
NameError is raised before create_dca_payment is called and the per-client
handler at lines 759-761 continues with the next client.  The first branch
of the inner if is what one iteration would do if the name resolved. -/
def distribute_to_clients (env : Env) (transaction : Tx)
    (distributions : List (String × DistEntry)) (s : St) : St :=
  distributions.foldl (fun acc pd =>
    let client_id := pd.1
    let distribution := pd.2
    match env.flowClients.find? (fun c => c.id = client_id) with
    | none => acc
    | some client =>
      if pyResolves distribute_to_clients_locals "transaction_time" then
        let dca_payment : Payment :=
          { id := acc.payments.length
            client_id := client_id
            amount_sats := distribution.sats_amount
            amount_fiat := distribution.fiat_amount
            exchange_rate := distribution.exchange_rate
            lamassu_transaction_id := transaction.transaction_id
            transaction_time := transaction.transaction_time
            status := .pending }
        let s1 := { acc with payments := acc.payments ++ [dca_payment] }
        let res := send_dca_payment env client distribution
          transaction.transaction_id s1
        if res.2 then update_payment_status res.1 dca_payment.id .confirmed
        else update_payment_status res.1 dca_payment.id .failed
      else acc) s

/-- Lines 929-981: send the commission to the commission wallet.  True with
no transfer when no commission wallet is configured; False when no source
wallet is configured or invoice creation or settlement fails; otherwise the
transfer is recorded. -/
def send_commission_payment (env : Env) (_transaction : Tx)
    (commission_amount_sats : ℤ) (s : St) : St × Bool :=
  match env.config with
  | none => (s, true)
  | some admin_config =>
    match admin_config.commission_wallet_id with
    | none => (s, true)
    | some commission_wallet_id =>
      match admin_config.source_wallet_id with
      | none => (s, false)
      | some _source_wallet_id =>
        if env.commissionInvoiceOk then
          if env.commissionPayOk then
            ({ s with commissionTransfers :=
                s.commissionTransfers ++ [(commission_wallet_id, commission_amount_sats)] },
             true)
          else (s, false)
        else (s, false)

/-- Lines 1031-1039 via crud: attach distribution statistics to a stored
transaction. -/
def update_lamassu_transaction_distribution_stats (s : St) (stored_id : ℕ)
    (clients_count : ℕ) (total_sats : ℤ) : St :=
  { s with storedTxs :=
      s.storedTxs.map (fun t =>
        if t.id = stored_id then
          { t with clients_count := some clients_count,
                   distributions_total_sats := some total_sats }
        else t) }

/-- Return points of process_transaction, in source order: the idempotency
skip at line 992, the credit-failure abort at line 1000, the
no-distributions return at line 1010, and the full completion. -/
inductive ProcOutcome
  | skip
  | creditFailed
  | noDistribution
  | done
  deriving DecidableEq

/-- Lines 983-1044: process a single transaction.  Gate on already-linked
payments, credit the source wallet (fatal on failure), store the
transaction, compute distributions (empty means done), distribute, send the
commission when positive, and attach statistics when a stored record
exists. -/
def process_transaction (env : Env) (transaction : Tx) (s : St) :
    St × ProcOutcome :=
  if get_payments_by_lamassu_transaction s transaction.transaction_id ≠ [] then
    (s, .skip)
  else
    let credit := credit_source_wallet env transaction s
    if credit.2 then
      let stored := store_lamassu_transaction env transaction credit.1
      let distributions := calculate_distribution_amounts env transaction
      if distributions = [] then (stored.1, .noDistribution)
      else
        let crypto_atoms := transaction.crypto_amount.getD 0
        let commission_percentage := transaction.commission_percentage.getD 0
        let discount := transaction.discount.getD 0
        let commission_amount_sats :=
          (decompose crypto_atoms commission_percentage discount).commission_amount_sats
        let s3 := distribute_to_clients env transaction distributions stored.1
        let s4 :=
          if 0 < commission_amount_sats then
            (send_commission_payment env transaction commission_amount_sats s3).1
          else s3
        let s5 :=
          match stored.2 with
          | some stored_id =>
              update_lamassu_transaction_distribution_stats s4 stored_id
                distributions.length
                ((distributions.map (fun d => d.2.sats_amount)).sum)
          | none => s4
        (s5, .done)
    else (credit.1, .creditFailed)

/-- Lines 535-603: rows of the remote query, minus rows whose transaction
identifier is already linked to an existing payment record.  The remote
query itself (time threshold and status filters) is abstracted as the
queryResult the channel returns. -/
def fetch_new_transactions (env : Env) (s : St) : List Tx :=
  env.queryResult.filter (fun tx =>
    !(s.payments.any (fun p => p.lamassu_transaction_id == tx.transaction_id)))

/-- Lines 381-397: retrieve the configuration and, when one exists,
unconditionally overwrite the stored test result with True before any
connectivity is exercised. -/
def connect_to_lamassu_db (env : Env) (s : St) : St × Option Config :=
  match env.config with
  | none => (s, none)
  | some db_config =>
      ({ s with testResultWrites := s.testResultWrites ++ [true] },
       some db_config)

/-- Lines 1069-1071: process every fetched transaction sequentially. -/
def process_all (env : Env) (txs : List Tx) (s : St) : St :=
  txs.foldl (fun acc tx => (process_transaction env tx acc).1) s

/-- Lines 1046-1079: one poll cycle.  Missing configuration ends the cycle
with no watermark write; the poll-start watermark write happens before the
fetch (if that write itself raises, the top-level handler ends the cycle);
the poll-success watermark write happens only after the whole
fetch-and-process sequence (again unless that write itself raises). -/
def poll_and_process (env : Env) (s : St) : St :=
  match connect_to_lamassu_db env s with
  | (s1, none) => s1
  | (s1, some _db_config) =>
    if env.pollStartRaises then s1
    else
      let s2 := { s1 with pollStartWrites := s1.pollStartWrites ++ [env.now] }
      let new_transactions := fetch_new_transactions env s2
      let s3 := process_all env new_transactions s2
      if env.pollSuccessRaises then s3
      else { s3 with pollSuccessWrites := s3.pollSuccessWrites ++ [env.now] }

/-- Structured result of the diagnostic probe (message and step strings are
omitted; the flags and the persisted outcome are what the claims are
about). -/
structure DiagResult where
  success : Bool
  ssh_tunnel_used : Bool
  ssh_tunnel_success : Bool
  database_connection_success : Bool
  config_id : Option String
  deriving DecidableEq

/-- Lines 270-379: staged connectivity probe.  Each hard stage failure
returns the structured result directly (lines 289, 302, 308, 324, 337),
bypassing the test-result write at lines 372-377; the write is reached only
on the full-success path (the callees catch their own errors and return
failure values, so the except branch at lines 357-370 cannot be entered).
The timezone stage is soft and does not affect the outcome. -/
def test_connection_detailed (env : Env) (s : St) : St × DiagResult :=
  match env.config with
  | none =>
      (s, { success := false, ssh_tunnel_used := false,
            ssh_tunnel_success := false, database_connection_success := false,
            config_id := none })
  | some cfg =>
    if env.use_ssh_tunnel then
      if !env.sshAvailable then
        (s, { success := false, ssh_tunnel_used := true,
              ssh_tunnel_success := false,
              database_connection_success := false, config_id := some cfg.id })
      else if !env.tunnelOk then
        (s, { success := false, ssh_tunnel_used := true,
              ssh_tunnel_success := false,
              database_connection_success := false, config_id := some cfg.id })
      else if !env.queryOk then
        (s, { success := false, ssh_tunnel_used := true,
              ssh_tunnel_success := true,
              database_connection_success := false, config_id := some cfg.id })
      else if !env.tableOk then
        (s, { success := false, ssh_tunnel_used := true,
              ssh_tunnel_success := true,
              database_connection_success := true, config_id := some cfg.id })
      else
        ({ s with testResultWrites := s.testResultWrites ++ [true] },
         { success := true, ssh_tunnel_used := true, ssh_tunnel_success := true,
           database_connection_success := true, config_id := some cfg.id })
    else
      if !env.queryOk then
        (s, { success := false, ssh_tunnel_used := false,
              ssh_tunnel_success := false,
              database_connection_success := false, config_id := some cfg.id })
      else if !env.tableOk then
        (s, { success := false, ssh_tunnel_used := false,
              ssh_tunnel_success := false,
              database_connection_success := true, config_id := some cfg.id })
      else
        ({ s with testResultWrites := s.testResultWrites ++ [true] },
         { success := true, ssh_tunnel_used := false,
           ssh_tunnel_success := false,
           database_connection_success := true, config_id := some cfg.id })

/-- The hard stages of the probe: tunnel (when required), trivial query,
table access. -/
def diag_hard_stages_pass (env : Env) : Bool :=
  (!env.use_ssh_tunnel || (env.sshAvailable && env.tunnelOk))
    && env.queryOk && env.tableOk

/-- Concrete fixtures used by witnesses and counterexamples. -/
def cfg1 : Config := ⟨"cfg-1", some "src-wallet", none⟩

def clientA : DcaClient := ⟨"client-a", "wallet-a"⟩

def clientB : DcaClient := ⟨"client-b", "wallet-b"⟩

def clientC : DcaClient := ⟨"client-c", "wallet-c"⟩

def tx1 : Tx :=
  { transaction_id := "tx-0001", fiat_amount := some 1000,
    crypto_amount := some 105000, commission_percentage := none,
    discount := none, transaction_time := some 5 }

def env1 : Env :=
  { config := some cfg1
    flowClients := [clientA]
    balanceAsOf := fun _ _ => 100
    walletExists := fun _ => true
    creditOk := true
    invoiceOk := fun _ => true
    payOk := fun _ => true
    commissionInvoiceOk := true
    commissionPayOk := true
    queryResult := [tx1]
    now := 77
    pollStartRaises := false
    pollSuccessRaises := false
    use_ssh_tunnel := true
    sshAvailable := true
    tunnelOk := false
    queryOk := true
    tableOk := true
    timezoneOk := true }

/-- Environment whose balance oracle differs away from instant 5 only. -/
def env2 : Env :=
  { env1 with
    flowClients := [clientA, clientB]
    balanceAsOf := fun cid t =>
      if t = some 5 then (if cid = "client-a" then 1 else 2) else 999 }

/-- Environment agreeing with env2 at instant 5, differing elsewhere. -/
def env3 : Env :=
  { env2 with
    balanceAsOf := fun cid t =>
      if t = some 5 then (if cid = "client-a" then 1 else 2) else 111 }

/-- Environment in which crediting the source wallet raises. -/
def env4 : Env := { env1 with creditOk := false }

/-- Environment with three participants in which the payout to the middle
participant would fail. -/
def env6 : Env :=
  { env1 with
    flowClients := [clientA, clientB, clientC]
    payOk := fun w => !(w == "wallet-b") }

/-- Environment in which every probe stage succeeds. -/
def env7 : Env := { env1 with tunnelOk := true }

/-- Concrete distribution mapping for three participants. -/
def dists6 : List (String × DistEntry) :=
  [("client-a", ⟨100, 30000, 100⟩), ("client-b", ⟨100, 30000, 100⟩),
   ("client-c", ⟨100, 30000, 100⟩)]

/-- Balance oracle for the allocation witness: balances 1 and 2. -/
def balW : String → ℤ := fun cid => if cid = "client-a" then 1 else 2

/-- State carrying a previously recorded diagnostic failure. -/
def stFail : St := { st0 with testResultWrites := [false] }

section TruncLemmas

lemma pyTrunc_eq_floor {q : ℚ} (h : 0 ≤ q) : pyTrunc q = ⌊q⌋ := if_pos h

lemma pyTrunc_nonneg {q : ℚ} (h : 0 ≤ q) : 0 ≤ pyTrunc q := by
  rw [pyTrunc_eq_floor h]
  exact Int.floor_nonneg.mpr h

end TruncLemmas

section NameResolution

lemma tt_unbound_store :
    pyResolves store_lamassu_transaction_locals "transaction_time" = false := by
  decide

lemma tt_unbound_distribute :
    pyResolves distribute_to_clients_locals "transaction_time" = false := by
  decide

/-- store_lamassu_transaction always hits the NameError branch: the state is
untouched and None is returned. -/
lemma store_eq (env : Env) (transaction : Tx) (s : St) :
    store_lamassu_transaction env transaction s = (s, none) := by
  simp [store_lamassu_transaction, tt_unbound_store]

/-- Every iteration of distribute_to_clients hits the NameError branch, so
the whole loop is the identity on the state. -/
lemma distribute_eq (env : Env) (transaction : Tx)
    (distributions : List (String × DistEntry)) (s : St) :
    distribute_to_clients env transaction distributions s = s := by
  unfold distribute_to_clients
  induction distributions with
  | nil => rfl
  | cons pd rest ih =>
      rw [List.foldl_cons]
      convert ih using 2
      cases h : env.flowClients.find? (fun c => c.id = pd.1) with
      | none => simp [h]
      | some c => simp [h, tt_unbound_distribute]

end NameResolution

section FrameLemmas

lemma credit_shape (env : Env) (transaction : Tx) (s : St) :
    (credit_source_wallet env transaction s).1 = s ∨
    (credit_source_wallet env transaction s).1
      = { s with credits :=
            s.credits ++ [(transaction.transaction_id, transaction.crypto_amount.getD 0)] } := by
  rcases hc : env.config with _ | cfg
  · left; simp [credit_source_wallet, hc]
  · rcases h1 : cfg.source_wallet_id with _ | swid
    · left; simp [credit_source_wallet, hc, h1]
    · rcases h2 : transaction.crypto_amount with _ | n
      · left; simp [credit_source_wallet, hc, h1, h2]
      · by_cases hw : env.walletExists swid
        · by_cases hk : env.creditOk
          · right; simp [credit_source_wallet, hc, h1, h2, hw, hk]
          · left; simp [credit_source_wallet, hc, h1, h2, hw, hk]
        · left; simp [credit_source_wallet, hc, h1, h2, hw]

lemma credit_fail_state (env : Env) (transaction : Tx) (s : St)
    (h : (credit_source_wallet env transaction s).2 = false) :
    (credit_source_wallet env transaction s).1 = s := by
  rcases hc : env.config with _ | cfg
  · simp [credit_source_wallet, hc]
  · rcases h1 : cfg.source_wallet_id with _ | swid
    · simp [credit_source_wallet, hc, h1]
    · rcases h2 : transaction.crypto_amount with _ | n
      · simp [credit_source_wallet, hc, h1, h2]
      · by_cases hw : env.walletExists swid
        · by_cases hk : env.creditOk
          · simp [credit_source_wallet, hc, h1, h2, hw, hk] at h
          · simp [credit_source_wallet, hc, h1, h2, hw, hk]
        · simp [credit_source_wallet, hc, h1, h2, hw]

lemma commission_shape (env : Env) (transaction : Tx) (a : ℤ) (s : St) :
    ((send_commission_payment env transaction a s).1 = s ∨
     ∃ w, (send_commission_payment env transaction a s).1
        = { s with commissionTransfers := s.commissionTransfers ++ [(w, a)] }) := by
  rcases hc : env.config with _ | cfg
  · left; simp [send_commission_payment, hc]
  · rcases h1 : cfg.commission_wallet_id with _ | cwid
    · left; simp [send_commission_payment, hc, h1]
    · rcases h2 : cfg.source_wallet_id with _ | swid
      · left; simp [send_commission_payment, hc, h1, h2]
      · by_cases hi : env.commissionInvoiceOk
        · by_cases hp : env.commissionPayOk
          · right
            exact ⟨cwid, by simp [send_commission_payment, hc, h1, h2, hi, hp]⟩
          · left; simp [send_commission_payment, hc, h1, h2, hi, hp]
        · left; simp [send_commission_payment, hc, h1, h2, hi]

lemma credit_frame (env : Env) (transaction : Tx) (s : St) :
    (credit_source_wallet env transaction s).1.pollStartWrites = s.pollStartWrites ∧
    (credit_source_wallet env transaction s).1.pollSuccessWrites = s.pollSuccessWrites ∧
    (credit_source_wallet env transaction s).1.testResultWrites = s.testResultWrites ∧
    (credit_source_wallet env transaction s).1.payments = s.payments := by
  rcases credit_shape env transaction s with h | h <;> simp [h]

lemma commission_frame (env : Env) (transaction : Tx) (a : ℤ) (s : St) :
    (send_commission_payment env transaction a s).1.pollStartWrites = s.pollStartWrites ∧
    (send_commission_payment env transaction a s).1.pollSuccessWrites = s.pollSuccessWrites ∧
    (send_commission_payment env transaction a s).1.testResultWrites = s.testResultWrites ∧
    (send_commission_payment env transaction a s).1.payments = s.payments := by
  rcases commission_shape env transaction a s with h | ⟨w, h⟩ <;> simp [h]

/-- Processing one transaction never touches the watermark or test-result
write logs. -/
lemma process_transaction_frame (env : Env) (transaction : Tx) (s : St) :
    (process_transaction env transaction s).1.pollStartWrites = s.pollStartWrites ∧
    (process_transaction env transaction s).1.pollSuccessWrites = s.pollSuccessWrites ∧
    (process_transaction env transaction s).1.testResultWrites = s.testResultWrites := by
  unfold process_transaction
  by_cases hg : get_payments_by_lamassu_transaction s transaction.transaction_id ≠ []
  · simp [hg]
  · simp only [hg, if_false, store_eq, distribute_eq]
    obtain ⟨c1, c2, c3, c4⟩ := credit_frame env transaction s
    by_cases hc : (credit_source_wallet env transaction s).2
    · simp only [hc, if_true]
      by_cases hd : calculate_distribution_amounts env transaction = []
      · simp [hd, c1, c2, c3]
      · by_cases hcomm : 0 < (decompose (transaction.crypto_amount.getD 0)
            (transaction.commission_percentage.getD 0)
            (transaction.discount.getD 0)).commission_amount_sats
        · obtain ⟨m1, m2, m3, m4⟩ := commission_frame env transaction
            ((decompose (transaction.crypto_amount.getD 0)
              (transaction.commission_percentage.getD 0)
              (transaction.discount.getD 0)).commission_amount_sats)
            ((credit_source_wallet env transaction s).1)
          simp [hd, hcomm, m1, m2, m3, c1, c2, c3]
        · simp [hd, hcomm, c1, c2, c3]
    · simp [hc, credit_fail_state env transaction s (by simpa using hc)]

lemma process_all_frame (env : Env) (txs : List Tx) (s : St) :
    (process_all env txs s).pollStartWrites = s.pollStartWrites ∧
    (process_all env txs s).pollSuccessWrites = s.pollSuccessWrites ∧
    (process_all env txs s).testResultWrites = s.testResultWrites := by
  unfold process_all
  induction txs generalizing s with
  | nil => exact ⟨rfl, rfl, rfl⟩
  | cons tx rest ih =>
      rw [List.foldl_cons]
      obtain ⟨i1, i2, i3⟩ := ih ((process_transaction env tx s).1)
      obtain ⟨p1, p2, p3⟩ := process_transaction_frame env tx s
      exact ⟨i1.trans p1, i2.trans p2, i3.trans p3⟩

end FrameLemmas

section AllocationLemmas

lemma floor_sum_le (l : List ℚ) : (l.map (fun q => ⌊q⌋)).sum ≤ ⌊l.sum⌋ := by
  induction l with
  | nil => simp
  | cons a t ih =>
      simp only [List.map_cons, List.sum_cons]
      have h1 : ⌊a⌋ + (t.map (fun q => ⌊q⌋)).sum ≤ ⌊a⌋ + ⌊t.sum⌋ := by linarith
      refine h1.trans ?_
      rw [Int.le_floor]
      push_cast
      have h2 := Int.floor_le a
      have h3 := Int.floor_le t.sum
      linarith

lemma mem_eligible {flow_clients : List DcaClient} {balanceOf : String → ℤ}
    {p : String × ℤ} (hp : p ∈ eligibleBalances flow_clients balanceOf) :
    0 < p.2 ∧ ∃ c ∈ flow_clients, p = (c.id, balanceOf c.id) := by
  rw [eligibleBalances, List.mem_filter] at hp
  obtain ⟨hm, hpos⟩ := hp
  refine ⟨by simpa using hpos, ?_⟩
  rw [List.mem_map] at hm
  obtain ⟨c, hcmem, hcf⟩ := hm
  exact ⟨c, hcmem, hcf.symm⟩

lemma eligible_sum_nonneg (flow_clients : List DcaClient) (balanceOf : String → ℤ) :
    0 ≤ ((eligibleBalances flow_clients balanceOf).map Prod.snd).sum := by
  apply List.sum_nonneg
  intro x hx
  rw [List.mem_map] at hx
  obtain ⟨p, hp, rfl⟩ := hx
  exact (mem_eligible hp).1.le

lemma allocate_of_mem (base : ℤ) (rate : ℚ) (flow_clients : List DcaClient)
    (balanceOf : String → ℤ) (hbase : 0 ≤ base)
    {q : String × DistEntry}
    (hq : q ∈ allocate base rate (eligibleBalances flow_clients balanceOf)) :
    ∃ b : ℤ, (q.1, b) ∈ eligibleBalances flow_clients balanceOf ∧
      q.2.sats_amount
        = ⌊(base : ℚ) * ((b : ℚ)
            / ((((eligibleBalances flow_clients balanceOf).map Prod.snd).sum : ℤ) : ℚ))⌋ ∧
      q.2.fiat_amount = (if 0 < rate then ⌊(q.2.sats_amount : ℚ) / rate⌋ else 0) := by
  set B := eligibleBalances flow_clients balanceOf with hB
  set total := (B.map Prod.snd).sum with htotal
  by_cases ht : total = 0
  · simp [allocate, ← htotal, ht] at hq
  · have htpos : 0 < total :=
      lt_of_le_of_ne (by rw [htotal, hB]; exact eligible_sum_nonneg _ _) (Ne.symm ht)
    simp only [allocate, ← htotal, ht, if_neg, List.mem_map, not_false_iff] at hq
    obtain ⟨p, hp, rfl⟩ := hq
    have hppos : 0 < p.2 := (mem_eligible (hB ▸ hp)).1
    have harg : 0 ≤ (base : ℚ) * ((p.2 : ℚ) / (total : ℚ)) := by
      apply mul_nonneg (by exact_mod_cast hbase)
      apply div_nonneg (by exact_mod_cast hppos.le) (by exact_mod_cast htpos.le)
    refine ⟨p.2, by simpa using hp, ?_, ?_⟩
    · exact pyTrunc_eq_floor harg
    · by_cases hr : 0 < rate
      · have hsats : (0 : ℚ) ≤ (pyTrunc ((base : ℚ) * ((p.2 : ℚ) / (total : ℚ))) : ℚ) := by
          exact_mod_cast pyTrunc_nonneg harg
        simp only [hr, if_pos]
        exact pyTrunc_eq_floor (div_nonneg hsats hr.le)
      · simp [hr]

lemma allocate_sum_le (base : ℤ) (rate : ℚ) (flow_clients : List DcaClient)
    (balanceOf : String → ℤ) (hbase : 0 ≤ base) :
    ((allocate base rate (eligibleBalances flow_clients balanceOf)).map
      (fun q => q.2.sats_amount)).sum ≤ base := by
  set B := eligibleBalances flow_clients balanceOf with hB
  set total := (B.map Prod.snd).sum with htotal
  by_cases ht : total = 0
  · simp [allocate, ← htotal, ht]
    exact hbase
  · have htpos : 0 < total :=
      lt_of_le_of_ne (by rw [htotal, hB]; exact eligible_sum_nonneg _ _) (Ne.symm ht)
    have hmap : ((allocate base rate B).map (fun q => q.2.sats_amount))
        = B.map (fun p => pyTrunc ((base : ℚ) * ((p.2 : ℚ) / (total : ℚ)))) := by
      simp [allocate, ← htotal, ht, List.map_map]
    have hfl : ∀ p ∈ B, pyTrunc ((base : ℚ) * ((p.2 : ℚ) / (total : ℚ)))
        = ⌊(base : ℚ) * ((p.2 : ℚ) / (total : ℚ))⌋ := by
      intro p hp
      apply pyTrunc_eq_floor
      apply mul_nonneg (by exact_mod_cast hbase)
      apply div_nonneg _ (by exact_mod_cast htpos.le)
      exact_mod_cast (mem_eligible (hB ▸ hp)).1.le
    rw [hmap, List.map_congr_left hfl]
    have hle : (B.map (fun p => ⌊(base : ℚ) * ((p.2 : ℚ) / (total : ℚ))⌋)).sum
        ≤ ⌊(B.map (fun p => (base : ℚ) * ((p.2 : ℚ) / (total : ℚ)))).sum⌋ := by
      have h0 := floor_sum_le (B.map (fun p => (base : ℚ) * ((p.2 : ℚ) / (total : ℚ))))
      rwa [List.map_map] at h0
    refine hle.trans ?_
    have hsum : (B.map (fun p => (base : ℚ) * ((p.2 : ℚ) / (total : ℚ)))).sum
        = (base : ℚ) := by
      have hcongr : B.map (fun p => (base : ℚ) * ((p.2 : ℚ) / (total : ℚ)))
          = B.map (fun p => ((base : ℚ) / (total : ℚ)) * (p.2 : ℚ)) :=
        List.map_congr_left (fun p _ => by ring)
      rw [hcongr, List.sum_map_mul_left]
      have hcast : (B.map (fun p => ((p.2 : ℤ) : ℚ))).sum = ((total : ℤ) : ℚ) := by
        rw [htotal, Int.cast_list_sum, List.map_map]
        rfl
      rw [hcast]
      have htne : ((total : ℤ) : ℚ) ≠ 0 := Int.cast_ne_zero.mpr ht
      field_simp
    rw [hsum, Int.floor_intCast]

lemma allocate_empty_of_nonpos (base : ℤ) (rate : ℚ) (flow_clients : List DcaClient)
    (balanceOf : String → ℤ) (hall : ∀ c ∈ flow_clients, balanceOf c.id ≤ 0) :
    allocate base rate (eligibleBalances flow_clients balanceOf) = [] := by
  have hB : eligibleBalances flow_clients balanceOf = [] := by
    rw [eligibleBalances, List.filter_eq_nil_iff]
    intro p hp
    rw [List.mem_map] at hp
    obtain ⟨c, hc, rfl⟩ := hp
    simpa using hall c hc
  simp [allocate, hB]

lemma eligible_of_pos (flow_clients : List DcaClient) (balanceOf : String → ℤ)
    {c : DcaClient} (hc : c ∈ flow_clients) (hpos : 0 < balanceOf c.id) :
    (c.id, balanceOf c.id) ∈ eligibleBalances flow_clients balanceOf := by
  rw [eligibleBalances, List.mem_filter]
  exact ⟨List.mem_map.mpr ⟨c, hc, rfl⟩, by simpa using hpos⟩

/-- The computed distribution depends on the balance oracle only at the
confirmation instant of the transaction itself. -/
lemma calc_dist_congr (env env₂ : Env) (transaction : Tx)
    (hcl : env.flowClients = env₂.flowClients)
    (hbal : ∀ cid, env.balanceAsOf cid transaction.transaction_time
                 = env₂.balanceAsOf cid transaction.transaction_time) :
    calculate_distribution_amounts env transaction
      = calculate_distribution_amounts env₂ transaction := by
  have hfun : (fun cid => env.balanceAsOf cid transaction.transaction_time)
      = (fun cid => env₂.balanceAsOf cid transaction.transaction_time) := funext hbal
  simp only [calculate_distribution_amounts, hcl, hfun]

end AllocationLemmas

section ConcreteEval

/-- One poll cycle of env1 from the empty state: the source wallet is
credited once, no payment records and no payouts are produced (the
distribute loop dies on the NameError), and both watermarks advance. -/
lemma poll_env1_eval : poll_and_process env1 st0 =
    { credits := [("tx-0001", 105000)], storedTxs := [], payments := [],
      payouts := [], invoicesCreated := [], commissionTransfers := [],
      testResultWrites := [true], pollStartWrites := [77],
      pollSuccessWrites := [77] } := by
  norm_num [poll_and_process, connect_to_lamassu_db, fetch_new_transactions,
    process_all, process_transaction, get_payments_by_lamassu_transaction,
    credit_source_wallet, store_eq, calculate_distribution_amounts,
    eligibleBalances, allocate, decompose, exchangeRateOf, pyTrunc,
    distribute_eq, env1, cfg1, tx1, clientA, st0]

/-- A second poll cycle over the same remote row credits the source wallet a
second time: no payment record exists that could trigger either
de-duplication layer. -/
lemma poll_env1_eval2 : poll_and_process env1
    { credits := [("tx-0001", 105000)], storedTxs := [], payments := [],
      payouts := [], invoicesCreated := [], commissionTransfers := [],
      testResultWrites := [true], pollStartWrites := [77],
      pollSuccessWrites := [77] } =
    { credits := [("tx-0001", 105000), ("tx-0001", 105000)], storedTxs := [],
      payments := [], payouts := [], invoicesCreated := [],
      commissionTransfers := [], testResultWrites := [true, true],
      pollStartWrites := [77, 77], pollSuccessWrites := [77, 77] } := by
  norm_num [poll_and_process, connect_to_lamassu_db, fetch_new_transactions,
    process_all, process_transaction, get_payments_by_lamassu_transaction,
    credit_source_wallet, store_eq, calculate_distribution_amounts,
    eligibleBalances, allocate, decompose, exchangeRateOf, pyTrunc,
    distribute_eq, env1, cfg1, tx1, clientA]

end ConcreteEval

/-- C2: for a transaction with total atomic units T, commission percentage c
and discount d (0 ≤ d ≤ 100, 0 ≤ T), the effective commission fraction is
c * (100 - d) / 100 when c > 0 and 0 when c ≤ 0, the base amount is
floor(T / (1 + f)), the commission amount is T - base (hence base ≤ T), and
the exchange rate is base / fiat when fiat > 0 and 0 otherwise. -/
theorem decompose_spec_C2 (T : ℤ) (c d : ℚ) (fiat : ℤ)
    (hT : 0 ≤ T) (hd0 : 0 ≤ d) (hd100 : d ≤ 100) :
    (0 < c → (decompose T c d).effective_commission = c * (100 - d) / 100) ∧
    (c ≤ 0 → (decompose T c d).effective_commission = 0) ∧
    (decompose T c d).base_crypto_atoms
      = ⌊(T : ℚ) / (1 + (decompose T c d).effective_commission)⌋ ∧
    (decompose T c d).commission_amount_sats = T - (decompose T c d).base_crypto_atoms ∧
    (decompose T c d).base_crypto_atoms ≤ T ∧
    exchangeRateOf (decompose T c d).base_crypto_atoms fiat
      = (if 0 < fiat then ((decompose T c d).base_crypto_atoms : ℚ) / (fiat : ℚ) else 0) := by
  by_cases hc : 0 < c
  · have hf : 0 ≤ c * (100 - d) / 100 := by
      apply div_nonneg _ (by norm_num)
      exact mul_nonneg hc.le (by linarith)
    have hone : (0 : ℚ) < 1 + c * (100 - d) / 100 := by linarith
    have hq : 0 ≤ (T : ℚ) / (1 + c * (100 - d) / 100) := by
      apply div_nonneg _ hone.le
      exact_mod_cast hT
    have hdec : decompose T c d
        = ⟨c * (100 - d) / 100,
           pyTrunc ((T : ℚ) / (1 + c * (100 - d) / 100)),
           T - pyTrunc ((T : ℚ) / (1 + c * (100 - d) / 100))⟩ := by
      simp [decompose, hc]
    refine ⟨fun _ => by rw [hdec], fun hle => absurd hc (not_lt.mpr hle), ?_, ?_, ?_, ?_⟩
    · rw [hdec]
      exact pyTrunc_eq_floor hq
    · rw [hdec]
    · rw [hdec]
      calc pyTrunc ((T : ℚ) / (1 + c * (100 - d) / 100))
          = ⌊(T : ℚ) / (1 + c * (100 - d) / 100)⌋ := pyTrunc_eq_floor hq
        _ ≤ ⌊(T : ℚ)⌋ := by
          apply Int.floor_le_floor
          apply div_le_self (by exact_mod_cast hT) (by linarith)
        _ = T := Int.floor_intCast T
    · rfl
  · have hdec : decompose T c d = ⟨0, T, 0⟩ := by simp [decompose, hc]
    refine ⟨fun h => absurd h hc, fun _ => by rw [hdec], ?_, ?_, ?_, ?_⟩
    · rw [hdec]
      simp
    · rw [hdec]
      simp
    · rw [hdec]
    · rfl

/-- Witness for C2 at the scenario of the specification: T = 105000,
c = 0.05, d = 0, fiat = 1000. -/
theorem decompose_spec_C2_witness :
    (0 ≤ (105000 : ℤ) ∧ 0 ≤ (0 : ℚ) ∧ (0 : ℚ) ≤ 100) ∧
    ((0 < (1 / 20 : ℚ) →
        (decompose 105000 (1 / 20) 0).effective_commission = (1 / 20 : ℚ) * (100 - 0) / 100) ∧
     ((1 / 20 : ℚ) ≤ 0 → (decompose 105000 (1 / 20) 0).effective_commission = 0) ∧
     (decompose 105000 (1 / 20) 0).base_crypto_atoms
       = ⌊(105000 : ℚ) / (1 + (decompose 105000 (1 / 20) 0).effective_commission)⌋ ∧
     (decompose 105000 (1 / 20) 0).commission_amount_sats
       = 105000 - (decompose 105000 (1 / 20) 0).base_crypto_atoms ∧
     (decompose 105000 (1 / 20) 0).base_crypto_atoms ≤ 105000 ∧
     exchangeRateOf (decompose 105000 (1 / 20) 0).base_crypto_atoms 1000
       = (if 0 < (1000 : ℤ) then
            ((decompose 105000 (1 / 20) 0).base_crypto_atoms : ℚ) / ((1000 : ℤ) : ℚ)
          else 0)) :=
  ⟨⟨by norm_num, by norm_num, by norm_num⟩,
   decompose_spec_C2 105000 (1 / 20) 0 1000 (by norm_num) (by norm_num) (by norm_num)⟩

/-- C3: only participants with strictly positive remaining balance (as of
the confirmation instant of the transaction itself) are included; each
included participant gets floor(base * balance / total) atomic units and,
when the exchange rate is positive, floor(share / rate) fiat units (else 0);
the shares sum to at most base; with no positively funded participant the
mapping is empty; and the distribution depends on balances only at the
confirmation instant of the transaction. -/
theorem allocation_C3 (base : ℤ) (rate : ℚ) (flow_clients : List DcaClient)
    (balanceOf : String → ℤ) (env env₂ : Env) (transaction : Tx)
    (hbase : 0 ≤ base)
    (hcl : env.flowClients = env₂.flowClients)
    (hbal : ∀ cid, env.balanceAsOf cid transaction.transaction_time
                 = env₂.balanceAsOf cid transaction.transaction_time) :
    (∀ p ∈ eligibleBalances flow_clients balanceOf,
        0 < p.2 ∧ ∃ c ∈ flow_clients, p = (c.id, balanceOf c.id)) ∧
    (∀ c ∈ flow_clients, 0 < balanceOf c.id →
        (c.id, balanceOf c.id) ∈ eligibleBalances flow_clients balanceOf) ∧
    (∀ q ∈ allocate base rate (eligibleBalances flow_clients balanceOf),
        ∃ b : ℤ, (q.1, b) ∈ eligibleBalances flow_clients balanceOf ∧
          q.2.sats_amount
            = ⌊(base : ℚ) * ((b : ℚ)
                / ((((eligibleBalances flow_clients balanceOf).map Prod.snd).sum : ℤ) : ℚ))⌋ ∧
          q.2.fiat_amount = (if 0 < rate then ⌊(q.2.sats_amount : ℚ) / rate⌋ else 0)) ∧
    ((allocate base rate (eligibleBalances flow_clients balanceOf)).map
        (fun q => q.2.sats_amount)).sum ≤ base ∧
    ((∀ c ∈ flow_clients, balanceOf c.id ≤ 0) →
        allocate base rate (eligibleBalances flow_clients balanceOf) = []) ∧
    calculate_distribution_amounts env transaction
      = calculate_distribution_amounts env₂ transaction :=
  ⟨fun _ hp => mem_eligible hp,
   fun _ hc hpos => eligible_of_pos flow_clients balanceOf hc hpos,
   fun _ hq => allocate_of_mem base rate flow_clients balanceOf hbase hq,
   allocate_sum_le base rate flow_clients balanceOf hbase,
   allocate_empty_of_nonpos base rate flow_clients balanceOf,
   calc_dist_congr env env₂ transaction hcl hbal⟩

/-- Witness for C3 at base 10 and balances 1 and 2 (the residual scenario of
the specification: shares 3 and 6, residual 1), with two environments whose
balance oracles agree at the confirmation instant only. -/
theorem allocation_C3_witness :
    (0 ≤ (10 : ℤ) ∧ env2.flowClients = env3.flowClients ∧
     (∀ cid, env2.balanceAsOf cid tx1.transaction_time
           = env3.balanceAsOf cid tx1.transaction_time)) ∧
    ((∀ p ∈ eligibleBalances [clientA, clientB] balW,
        0 < p.2 ∧ ∃ c ∈ [clientA, clientB], p = (c.id, balW c.id)) ∧
    (∀ c ∈ [clientA, clientB], 0 < balW c.id →
        (c.id, balW c.id) ∈ eligibleBalances [clientA, clientB] balW) ∧
    (∀ q ∈ allocate 10 2 (eligibleBalances [clientA, clientB] balW),
        ∃ b : ℤ, (q.1, b) ∈ eligibleBalances [clientA, clientB] balW ∧
          q.2.sats_amount
            = ⌊((10 : ℤ) : ℚ) * ((b : ℚ)
                / ((((eligibleBalances [clientA, clientB] balW).map Prod.snd).sum : ℤ) : ℚ))⌋ ∧
          q.2.fiat_amount
            = (if 0 < (2 : ℚ) then ⌊(q.2.sats_amount : ℚ) / 2⌋ else 0)) ∧
    ((allocate 10 2 (eligibleBalances [clientA, clientB] balW)).map
        (fun q => q.2.sats_amount)).sum ≤ 10 ∧
    ((∀ c ∈ [clientA, clientB], balW c.id ≤ 0) →
        allocate 10 2 (eligibleBalances [clientA, clientB] balW) = []) ∧
    calculate_distribution_amounts env2 tx1
      = calculate_distribution_amounts env3 tx1) :=
  ⟨⟨by norm_num, rfl, fun cid => rfl⟩,
   allocation_C3 10 2 [clientA, clientB] balW env2 env3 tx1 (by norm_num) rfl
     (fun cid => rfl)⟩

/-- C4: when an active configuration exists, the poll-start (attempted)
watermark is written at cycle start whenever that write itself does not
raise, independently of everything that follows; the poll-success watermark
is written exactly when neither top-level watermark write raises (the fetch
and per-transaction stages catch their own errors, so these writes are the
only top-level raise points of the cycle). -/
theorem watermark_C4 (env : Env) (s : St) (hcfg : env.config.isSome = true) :
    (env.pollStartRaises = false →
       (poll_and_process env s).pollStartWrites = s.pollStartWrites ++ [env.now]) ∧
    ((poll_and_process env s).pollSuccessWrites = s.pollSuccessWrites ++ [env.now]
       ↔ (env.pollStartRaises = false ∧ env.pollSuccessRaises = false)) := by
  obtain ⟨cfg, hc⟩ := Option.isSome_iff_exists.mp hcfg
  by_cases hs : env.pollStartRaises
  · simp [poll_and_process, connect_to_lamassu_db, hc, hs]
  · by_cases hp : env.pollSuccessRaises
    · obtain ⟨f1, f2, f3⟩ := process_all_frame env
        (fetch_new_transactions env
          { s with testResultWrites := s.testResultWrites ++ [true],
                   pollStartWrites := s.pollStartWrites ++ [env.now] })
        { s with testResultWrites := s.testResultWrites ++ [true],
                 pollStartWrites := s.pollStartWrites ++ [env.now] }
      simp [poll_and_process, connect_to_lamassu_db, hc, hs, hp, f1, f2]
    · obtain ⟨f1, f2, f3⟩ := process_all_frame env
        (fetch_new_transactions env
          { s with testResultWrites := s.testResultWrites ++ [true],
                   pollStartWrites := s.pollStartWrites ++ [env.now] })
        { s with testResultWrites := s.testResultWrites ++ [true],
                 pollStartWrites := s.pollStartWrites ++ [env.now] }
      simp [poll_and_process, connect_to_lamassu_db, hc, hs, hp, f1, f2]

/-- Witness for C4 at env1 and the empty state. -/
theorem watermark_C4_witness :
    env1.config.isSome = true ∧
    ((env1.pollStartRaises = false →
       (poll_and_process env1 st0).pollStartWrites
         = st0.pollStartWrites ++ [env1.now]) ∧
     ((poll_and_process env1 st0).pollSuccessWrites
         = st0.pollSuccessWrites ++ [env1.now]
       ↔ (env1.pollStartRaises = false ∧ env1.pollSuccessRaises = false))) :=
  ⟨rfl, watermark_C4 env1 st0 rfl⟩

/-- C5: when the transaction is not gated out and crediting the pooled
source wallet fails, process_transaction aborts with the credit-failure
outcome and an unchanged state (no stored transaction, no payment, no
payout, no commission transfer), and the rest of the batch is processed
exactly as if this transaction were absent. -/
theorem credit_failure_fatal_C5 (env : Env) (transaction : Tx) (s : St)
    (rest : List Tx)
    (hgate : get_payments_by_lamassu_transaction s transaction.transaction_id = [])
    (hfail : (credit_source_wallet env transaction s).2 = false) :
    process_transaction env transaction s = (s, ProcOutcome.creditFailed) ∧
    process_all env (transaction :: rest) s = process_all env rest s := by
  have h1 : process_transaction env transaction s = (s, ProcOutcome.creditFailed) := by
    unfold process_transaction
    simp [hgate, hfail, credit_fail_state env transaction s hfail]
  refine ⟨h1, ?_⟩
  unfold process_all
  rw [List.foldl_cons, h1]

/-- Witness for C5: env4, in which the balance update raises. -/
theorem credit_failure_fatal_C5_witness :
    (get_payments_by_lamassu_transaction st0 tx1.transaction_id = [] ∧
     (credit_source_wallet env4 tx1 st0).2 = false) ∧
    (process_transaction env4 tx1 st0 = (st0, ProcOutcome.creditFailed) ∧
     process_all env4 (tx1 :: []) st0 = process_all env4 [] st0) :=
  ⟨⟨rfl, rfl⟩, credit_failure_fatal_C5 env4 tx1 st0 [] rfl rfl⟩

/-- C6 (code bug): with three funded participants of which the middle one
would fail its payout, distribute_to_clients creates no pending payment
record at all, attempts no payout and creates no invoice — the
CreateDcaPaymentData construction dies on the unresolved name
transaction_time before create_dca_payment can run, for every participant
alike, contradicting the specified pending/confirmed/failed lifecycle. -/
theorem distribute_three_clients_C6 :
    distribute_to_clients env6 tx1 dists6 st0 = st0 ∧
    (distribute_to_clients env6 tx1 dists6 st0).payments = [] ∧
    (distribute_to_clients env6 tx1 dists6 st0).payouts = [] ∧
    (distribute_to_clients env6 tx1 dists6 st0).invoicesCreated = [] := by
  have h := distribute_eq env6 tx1 dists6 st0
  refine ⟨h, ?_, ?_, ?_⟩ <;> (rw [h]; rfl)

/-- C7 counterexample: with a configuration present and the SSH tunnel stage
failing, the probe returns a failed result without persisting any outcome,
contradicting the claim that the boolean outcome is persisted on every run
in which a configuration record exists. -/
theorem diag_counterexample_C7 :
    env1.config.isSome = true ∧ env1.use_ssh_tunnel = true ∧
    env1.tunnelOk = false ∧
    (test_connection_detailed env1 st0).1 = st0 ∧
    (test_connection_detailed env1 st0).1.testResultWrites = [] ∧
    (test_connection_detailed env1 st0).2.success = false := by
  refine ⟨rfl, rfl, rfl, ?_, ?_, ?_⟩ <;>
    simp [test_connection_detailed, env1, cfg1, st0]

/-- C7 amended: with a configuration present, the probe persists its
outcome (always the value true) exactly when all hard stages pass — tunnel
setup where required, the trivial query, and the table access; a hard-stage
failure returns early and persists nothing. -/
theorem diag_persist_amended_C7 (env : Env) (s : St) (cfg : Config)
    (hcfg : env.config = some cfg) :
    (diag_hard_stages_pass env = true →
       (test_connection_detailed env s).1.testResultWrites
         = s.testResultWrites ++ [true] ∧
       (test_connection_detailed env s).2.success = true) ∧
    (diag_hard_stages_pass env = false →
       (test_connection_detailed env s).1 = s ∧
       (test_connection_detailed env s).2.success = false) := by
  by_cases h1 : env.use_ssh_tunnel <;> by_cases h2 : env.sshAvailable <;>
    by_cases h3 : env.tunnelOk <;> by_cases h4 : env.queryOk <;>
      by_cases h5 : env.tableOk <;>
        simp [test_connection_detailed, diag_hard_stages_pass, hcfg,
          h1, h2, h3, h4, h5]

/-- Witness for the amended C7 at env7, in which every stage succeeds. -/
theorem diag_persist_amended_C7_witness :
    env7.config = some cfg1 ∧
    ((diag_hard_stages_pass env7 = true →
       (test_connection_detailed env7 st0).1.testResultWrites
         = st0.testResultWrites ++ [true] ∧
       (test_connection_detailed env7 st0).2.success = true) ∧
     (diag_hard_stages_pass env7 = false →
       (test_connection_detailed env7 st0).1 = st0 ∧
       (test_connection_detailed env7 st0).2.success = false)) :=
  ⟨rfl, diag_persist_amended_C7 env7 st0 cfg1 rfl⟩

/-- C8: the bare name transaction_time does not resolve in
store_lamassu_transaction, so the function returns None and persists
nothing, for every environment, transaction and state. -/
theorem store_returns_none_C8 :
    pyResolves store_lamassu_transaction_locals "transaction_time" = false ∧
    ∀ (env : Env) (transaction : Tx) (s : St),
      store_lamassu_transaction env transaction s = (s, none) :=
  ⟨tt_unbound_store, store_eq⟩

/-- C9: the bare name transaction_time does not resolve in
distribute_to_clients, so the loop creates no payment record and issues no
payout for any transaction and any distribution mapping: the state is
returned unchanged. -/
theorem distribute_no_op_C9 :
    pyResolves distribute_to_clients_locals "transaction_time" = false ∧
    ∀ (env : Env) (transaction : Tx) (distributions : List (String × DistEntry))
      (s : St),
      distribute_to_clients env transaction distributions s = s ∧
      (distribute_to_clients env transaction distributions s).payments
        = s.payments ∧
      (distribute_to_clients env transaction distributions s).payouts
        = s.payouts :=
  ⟨tt_unbound_distribute, fun env transaction distributions s =>
    ⟨distribute_eq env transaction distributions s,
     by rw [distribute_eq env transaction distributions s],
     by rw [distribute_eq env transaction distributions s]⟩⟩

/-- C1 (code bug): running the full poll pipeline twice over the same
remote transaction identifier produces zero persisted payments (not one
set) and credits the pooled source wallet twice; the second invocation is
not a skip, because the idempotency gate keys on persisted payments and the
distribute step never manages to persist any. -/
theorem pipeline_not_idempotent_C1 :
    (poll_and_process env1 (poll_and_process env1 st0)).payments = [] ∧
    (poll_and_process env1 (poll_and_process env1 st0)).credits
      = [("tx-0001", 105000), ("tx-0001", 105000)] ∧
    (process_transaction env1 tx1 (poll_and_process env1 st0)).2
      ≠ ProcOutcome.skip := by
  rw [poll_env1_eval, poll_env1_eval2]
  refine ⟨rfl, rfl, ?_⟩
  norm_num [process_transaction, get_payments_by_lamassu_transaction,
    credit_source_wallet, store_eq, calculate_distribution_amounts,
    eligibleBalances, allocate, decompose, exchangeRateOf, pyTrunc,
    distribute_eq, env1, cfg1, tx1, clientA]
  decide

/-- C10: whenever an active configuration exists, the poll cycle overwrites
the stored last-test-result flag with true at cycle start, before any
tunnel or remote connectivity is exercised (the theorem holds for every
environment, including ones in which every later stage fails), so a
previously recorded diagnostic failure is erased. -/
theorem connect_overwrite_C10 (env : Env) (s : St)
    (hcfg : env.config.isSome = true) :
    (poll_and_process env s).testResultWrites = s.testResultWrites ++ [true] ∧
    lastTestResult (poll_and_process env s) = some true := by
  obtain ⟨cfg, hc⟩ := Option.isSome_iff_exists.mp hcfg
  have key : (poll_and_process env s).testResultWrites
      = s.testResultWrites ++ [true] := by
    by_cases hs : env.pollStartRaises
    · simp [poll_and_process, connect_to_lamassu_db, hc, hs]
    · obtain ⟨f1, f2, f3⟩ := process_all_frame env
        (fetch_new_transactions env
          { s with testResultWrites := s.testResultWrites ++ [true],
                   pollStartWrites := s.pollStartWrites ++ [env.now] })
        { s with testResultWrites := s.testResultWrites ++ [true],
                 pollStartWrites := s.pollStartWrites ++ [env.now] }
      by_cases hp : env.pollSuccessRaises <;>
        simp [poll_and_process, connect_to_lamassu_db, hc, hs, hp, f3]
  refine ⟨key, ?_⟩
  rw [lastTestResult, key]
  simp

/-- Witness for C10 at env1 from a state holding a recorded failure. -/
theorem connect_overwrite_C10_witness :
    env1.config.isSome = true ∧
    ((poll_and_process env1 stFail).testResultWrites
       = stFail.testResultWrites ++ [true] ∧
     lastTestResult (poll_and_process env1 stFail) = some true) :=
  ⟨rfl, connect_overwrite_C10 env1 stFail rfl⟩

end SatMachine
